import Mathlib

set_option maxRecDepth 100000

/-!
Verification of the `brahms` gossip node (Go) against its specification.

All definitions are shallow embeddings of the Go source under `internal/`:
bytes are modelled as `List Nat` (each entry `< 256` where it matters),
Go's multi-valued `(T, error)` returns as `Except`, and machine integers as
`Nat`/`Int` with explicit reduction modulo 2^w at overflow points.
-/

namespace Brahms

/-! ## 32-bit word helpers (for SHA-256, `crypto/sha256`) -/

def w32 (x : Nat) : Nat := x % 4294967296

def rotr32 (x n : Nat) : Nat :=
  w32 (Nat.lor (Nat.shiftRight x n) (Nat.shiftLeft x (32 - n)))

def shr32 (x n : Nat) : Nat := Nat.shiftRight x n

def not32 (x : Nat) : Nat := Nat.xor x 4294967295

/-! ## SHA-256 (executable, byte-list in, 32-byte-list out) -/

def u32beBytes (x : Nat) : List Nat :=
  [x / 16777216 % 256, x / 65536 % 256, x / 256 % 256, x % 256]

def u64beBytes (x : Nat) : List Nat :=
  [x / 72057594037927936 % 256, x / 281474976710656 % 256,
   x / 1099511627776 % 256, x / 4294967296 % 256,
   x / 16777216 % 256, x / 65536 % 256, x / 256 % 256, x % 256]

def sha256K : List Nat :=
  [1116352408, 1899447441, 3049323471, 3921009573, 961987163, 1508970993,
   2453635748, 2870763221, 3624381080, 310598401, 607225278, 1426881987,
   1925078388, 2162078206, 2614888103, 3248222580, 3835390401, 4022224774,
   264347078, 604807628, 770255983, 1249150122, 1555081692, 1996064986,
   2554220882, 2821834349, 2952996808, 3210313671, 3336571891, 3584528711,
   113926993, 338241895, 666307205, 773529912, 1294757372, 1396182291,
   1695183700, 1986661051, 2177026350, 2456956037, 2730485921, 2820302411,
   3259730800, 3345764771, 3516065817, 3600352804, 4094571909, 275423344,
   430227734, 506948616, 659060556, 883997877, 958139571, 1322822218,
   1537002063, 1747873779, 1955562222, 2024104815, 2227730452, 2361852424,
   2428436474, 2756734187, 3204031479, 3329325298]

structure Sha256St where
  a : Nat
  b : Nat
  c : Nat
  d : Nat
  e : Nat
  f : Nat
  g : Nat
  h : Nat
deriving Repr, DecidableEq

def sha256Init : Sha256St :=
  ⟨1779033703, 3144134277, 1013904242, 2773480762, 1359893119, 2600822924, 528734635, 1541459225⟩

def sha256Pad (msg : List Nat) : List Nat :=
  let n := msg.length
  let z := (119 - n % 64) % 64
  msg ++ (0x80 :: List.replicate z 0) ++ u64beBytes (8 * n)

def chunk64Aux : Nat → List Nat → List (List Nat)
  | 0, _ => []
  | fuel + 1, l => if l.length < 64 then [] else l.take 64 :: chunk64Aux fuel (l.drop 64)

def chunk64 (l : List Nat) : List (List Nat) := chunk64Aux l.length l

def wordsOfBytes : List Nat → List Nat
  | b0 :: b1 :: b2 :: b3 :: rest =>
      (((b0 * 256 + b1) * 256 + b2) * 256 + b3) :: wordsOfBytes rest
  | _ => []

def bigS0 (x : Nat) : Nat := Nat.xor (rotr32 x 2) (Nat.xor (rotr32 x 13) (rotr32 x 22))
def bigS1 (x : Nat) : Nat := Nat.xor (rotr32 x 6) (Nat.xor (rotr32 x 11) (rotr32 x 25))
def smallS0 (x : Nat) : Nat := Nat.xor (rotr32 x 7) (Nat.xor (rotr32 x 18) (shr32 x 3))
def smallS1 (x : Nat) : Nat := Nat.xor (rotr32 x 17) (Nat.xor (rotr32 x 19) (shr32 x 10))
def chFun (x y z : Nat) : Nat := Nat.xor (Nat.land x y) (Nat.land (not32 x) z)
def majFun (x y z : Nat) : Nat :=
  Nat.xor (Nat.land x y) (Nat.xor (Nat.land x z) (Nat.land y z))

def sha256Extend (w : List Nat) : List Nat :=
  (List.range 48).foldl
    (fun acc i =>
      acc ++ [w32 (acc.getD i 0 + smallS0 (acc.getD (i + 1) 0) +
                   acc.getD (i + 9) 0 + smallS1 (acc.getD (i + 14) 0))])
    w

def sha256Round (st : Sha256St) (kw : Nat × Nat) : Sha256St :=
  let t1 := w32 (st.h + bigS1 st.e + chFun st.e st.f st.g + kw.1 + kw.2)
  let t2 := w32 (bigS0 st.a + majFun st.a st.b st.c)
  ⟨w32 (t1 + t2), st.a, st.b, st.c, w32 (st.d + t1), st.e, st.f, st.g⟩

def sha256Block (st : Sha256St) (block : List Nat) : Sha256St :=
  let w := sha256Extend (wordsOfBytes block)
  let r := (sha256K.zip w).foldl sha256Round st
  ⟨w32 (st.a + r.a), w32 (st.b + r.b), w32 (st.c + r.c), w32 (st.d + r.d),
   w32 (st.e + r.e), w32 (st.f + r.f), w32 (st.g + r.g), w32 (st.h + r.h)⟩

/-- SHA-256 of a byte list, as used throughout the Go source via `crypto/sha256`. -/
def sha256 (msg : List Nat) : List Nat :=
  let st := ((chunk64 (sha256Pad msg)).foldl sha256Block sha256Init)
  u32beBytes st.a ++ u32beBytes st.b ++ u32beBytes st.c ++ u32beBytes st.d ++
  u32beBytes st.e ++ u32beBytes st.f ++ u32beBytes st.g ++ u32beBytes st.h

/-! ## `internal/challenge` : countLeadingZeros, Challenger.IsSolvedCorrectly -/

/-- Go `bits.LeadingZeros8(b)` for a byte `b < 256`: 8 minus the bit length. -/
def leadingZeros8 (b : Nat) : Nat :=
  if 128 ≤ b then 0 else if 64 ≤ b then 1 else if 32 ≤ b then 2 else if 16 ≤ b then 3
  else if 8 ≤ b then 4 else if 4 ≤ b then 5 else if 2 ≤ b then 6 else if 1 ≤ b then 7
  else 8

/-- `challenge/util.go` countLeadingZeros: zero bits from the start of the slice
until a 1-bit is met (the Go loop adds 8 per zero byte and breaks at the first
nonzero byte). -/
def countLeadingZeros : List Nat → Nat
  | [] => 0
  | b :: rest => if b = 0 then 8 + countLeadingZeros rest else leadingZeros8 b

inductive ChalError where
  | invalidDifficulty
deriving Repr, DecidableEq

/-- `challenge/solver.go` Challenger.NewChallenge: SHA-256 of the newest
rotation key concatenated with the identity. -/
def newChallenge (keyRotation : List (List Nat)) (identity : List Nat) : List Nat :=
  sha256 (keyRotation.getLastD [] ++ identity)

/-- `challenge/solver.go` Challenger.IsSolvedCorrectly.  The Go loop scans the
rotation newest-to-oldest and sets `challengeValid` at the first key whose
`SHA-256(key ++ identity)` equals the challenge; the resulting boolean equals
existence over the rotation, written here with `List.any`. -/
def isSolvedCorrectly (keyRotation : List (List Nat)) (challenge nonce identity : List Nat)
    (difficulty : Int) : Except ChalError Bool :=
  let checkHash := sha256 (challenge ++ nonce)
  if (checkHash.length * 8 : Int) ≤ difficulty ∨ difficulty < 0 then
    .error .invalidDifficulty
  else if (countLeadingZeros checkHash : Int) < difficulty then
    .ok false
  else
    .ok (keyRotation.any fun key => sha256 (key ++ identity) == challenge)

/-! ## `internal/gossip/node.go` : Identity and Node -/

/-- `node.go` Node: a 32-byte identity (bytes) and an address (bytes of the Go
string). -/
structure Node where
  identity : List Nat
  address : List Nat
deriving Repr, DecidableEq

def hexDigit (n : Nat) : Nat := if n < 10 then 48 + n else 87 + n

/-- Go `hex.EncodeToString`, as bytes of the lowercase hex string. -/
def hexEncode : List Nat → List Nat
  | [] => []
  | b :: rest => hexDigit (b / 16) :: hexDigit (b % 16) :: hexEncode rest

/-- `node.go` Node.String(): hex of the identity followed by the address. -/
def nodeString (n : Node) : List Nat := hexEncode n.identity ++ n.address

/-! ## `internal/gossip/sampler.go` : Sampler -/

/-- Go `bytes.Compare(a, b) < 0` (lexicographic, shorter prefix first). -/
def bytesLt : List Nat → List Nat → Bool
  | [], [] => false
  | [], _ :: _ => true
  | _ :: _, [] => false
  | a :: as, b :: bs => if a < b then true else if b < a then false else bytesLt as bs

structure Sampler where
  bias : List Nat
  elem : Option Node
  currentElemHash : List Nat
deriving Repr, DecidableEq

/-- `sampler.go` Sampler.Init with the freshly drawn random bias as parameter:
the element slot and its hash are cleared. -/
def samplerInit (bias : List Nat) : Sampler :=
  { bias := bias, elem := none, currentElemHash := [] }

/-- The hash the sampler computes for a node: SHA-256 of bias ++ identity. -/
def hashOf (bias : List Nat) (n : Node) : List Nat := sha256 (bias ++ n.identity)

/-- `sampler.go` Sampler.Next: keep whichever node has the lower hash
(replace when the slot is empty or the new hash is lexicographically smaller). -/
def samplerNext (s : Sampler) (newElem : Node) : Sampler :=
  let newHash := sha256 (s.bias ++ newElem.identity)
  if s.elem.isNone || bytesLt newHash s.currentElemHash then
    { bias := s.bias, elem := some newElem, currentElemHash := newHash }
  else s

/-- `sampler.go` Sampler.Sample: the currently stored node, if any. -/
def sample (s : Sampler) : Option Node := s.elem

/-! ## `internal/gossip/server.go` : peer conditions, message store -/

/-- `server.go` peerCondition flags. -/
inductive PeerCondition where
  | allowPull
  | allowMessage
  | allowPushChallenge
  | denyPush
deriving Repr, DecidableEq

/-- The per-round peer-state map, `map[string][]peerCondition`, modelled as an
association list keyed by the identity bytes. -/
abbrev PeerState := List (List Nat × List PeerCondition)

/-- Go map read `s.peerState[string(identity)]`. -/
def psLookup : PeerState → List Nat → Option (List PeerCondition)
  | [], _ => none
  | (k, cs) :: rest, identity => if k = identity then some cs else psLookup rest identity

/-- `server.go` Server.hasPeerCondition. -/
def hasPeerCondition (ps : PeerState) (identity : List Nat) (c : PeerCondition) : Bool :=
  match psLookup ps identity with
  | some cs => cs.contains c
  | none => false

/-- `server.go` Server.addPeerCondition: append the condition to the peer's
list unless already present; create the binding when the peer is absent. -/
def addPeerCondition : PeerState → List Nat → PeerCondition → PeerState
  | [], identity, c => [(identity, [c])]
  | (k, cs) :: rest, identity, c =>
      if k = identity then
        (if cs.contains c then (k, cs) :: rest else (k, cs ++ [c]) :: rest)
      else (k, cs) :: addPeerCondition rest identity c

/-- `server.go` spreadableMessage. -/
structure SpreadMsg where
  localTTL : Int
  ttl : Nat
  dataType : Nat
  data : List Nat
  dataHash : List Nat
  sourceIdentity : List Nat
deriving Repr, DecidableEq

/-- `server.go` Server.spreadMessage: unconditionally append a message with
`LocalTTL = int(ttl)` and `SourceIdentity` the node's own identity. -/
def spreadMessage (ownIdentity : List Nat) (msgs : List SpreadMsg)
    (ttl : Nat) (dataType : Nat) (data : List Nat) : List SpreadMsg :=
  msgs ++ [{ localTTL := (ttl : Int), ttl := ttl, dataType := dataType, data := data,
             dataHash := sha256 data, sourceIdentity := ownIdentity }]

/-- The message-decay part of `server.go` Server.ResetPeerStates: decrement
every LocalTTL and keep exactly those messages whose decremented LocalTTL is
greater than −24. -/
def decayMessages (msgs : List SpreadMsg) : List SpreadMsg :=
  msgs.filterMap fun m =>
    let m' := { m with localTTL := m.localTTL - 1 }
    if -24 < m'.localTTL then some m' else none

/-- The filter in `server.go` Server.sendGossipMessages: a stored message is
offered for forwarding iff `LocalTTL > 0` (the loop `continue`s on `≤ 0`). -/
def forwardable (msgs : List SpreadMsg) : List SpreadMsg :=
  msgs.filter fun m => 0 < m.localTTL

/-! ## `handlers.go` (src/unnamed/part_007) : handlePush and handleMessage -/

/-- The fields of a parsed `PacketPush` used by handlePush. -/
structure PushPacket where
  senderIdentity : List Nat
  challenge : List Nat
  nonce : List Nat
  node : Node
deriving Repr, DecidableEq

/-- Go's `challengeOk, err := ...; if err != nil { log }; if !challengeOk`:
`IsSolvedCorrectly` pairs every error with a `false` boolean, so the handler
proceeds exactly when the call returns `(true, nil)`. -/
def challengeOkOf : Except ChalError Bool → Bool
  | .ok b => b
  | .error _ => false

/-- `handlers.go` Server.handlePush.  Returns the updated peer state and the
node sent to the `pushNodes` channel (`none` when the packet is dropped).
The key rotation and configured difficulty are the relevant server fields. -/
def handlePush (keyRotation : List (List Nat)) (challengeDifficulty : Nat)
    (ps : PeerState) (pkt : PushPacket) : PeerState × Option Node :=
  if hasPeerCondition ps pkt.senderIdentity .denyPush then (ps, none)
  else
    let ps1 := addPeerCondition ps pkt.senderIdentity .denyPush
    let challengeOk := challengeOkOf
      (isSolvedCorrectly keyRotation pkt.challenge pkt.nonce pkt.senderIdentity
        (challengeDifficulty : Int))
    if !challengeOk then (ps1, none)
    else if pkt.senderIdentity ≠ pkt.node.identity then (ps1, none)
    else (addPeerCondition ps1 pkt.senderIdentity .allowMessage, some pkt.node)

/-- The fields of a parsed `PacketMessage` used by handleMessage. -/
structure MsgPacket where
  senderIdentity : List Nat
  ttl : Nat
  dataType : Nat
  data : List Nat
deriving Repr, DecidableEq

/-- The loop over `s.messagesToSpread` in handleMessage: return `none` when a
stored message already carries the same (DataType, DataHash) (the Go early
`return`), otherwise the number of stored messages whose source identity
equals the sender. -/
def scanMessages (msgs : List SpreadMsg) (dataType : Nat) (dataHash : List Nat)
    (sender : List Nat) : Option Nat :=
  match msgs with
  | [] => some 0
  | m :: rest =>
      if m.dataType = dataType ∧ m.dataHash = dataHash then none
      else
        match scanMessages rest dataType dataHash sender with
        | none => none
        | some c => some (c + if m.sourceIdentity = sender then 1 else 0)

/-- The message stored by handleMessage: `newTTL = ttl - 1` unless the wire TTL
is 0 (infinite hops), in which case `newTTL = 0` and `LocalTTL = 255`. -/
def receivedMsgOf (pkt : MsgPacket) : SpreadMsg :=
  let newTTL := if pkt.ttl ≠ 0 then pkt.ttl - 1 else 0
  let localTTL : Int := if pkt.ttl ≠ 0 then (newTTL : Int) else 255
  { localTTL := localTTL, ttl := newTTL, dataType := pkt.dataType, data := pkt.data,
    dataHash := sha256 pkt.data, sourceIdentity := pkt.senderIdentity }

/-- `handlers.go` Server.handleMessage, restricted to its effect on the message
store: drop unless `AllowMessage(sender)`; drop silently on a (DataType,
DataHash) duplicate; drop when more than 50 stored messages already have this
sender as source; otherwise append the received message. -/
def handleMessage (ps : PeerState) (msgs : List SpreadMsg) (pkt : MsgPacket) :
    List SpreadMsg :=
  if !hasPeerCondition ps pkt.senderIdentity .allowMessage then msgs
  else
    match scanMessages msgs pkt.dataType (sha256 pkt.data) pkt.senderIdentity with
    | none => msgs
    | some messagesSameSource =>
        if 50 < messagesSameSource then msgs
        else msgs ++ [receivedMsgOf pkt]

/-! ## `sampler.go` SamplerGroup.RandomNodeSubset and `gossip.go` randSubset

Go slices of pointers are modelled as lists of `Option`; a nil-pointer
dereference (a Go runtime panic) and the constructors' error returns are the
two `Except` error cases. The `crypto/rand` draws are supplied as a list `js`
of arbitrary naturals; each Go draw `rand.Int(rand.Reader, big.NewInt(m))`
lies in `[0, m)` and is modelled as `js-entry % m`. -/

inductive GErr where
  | invalidArg
  | panicNilDeref
deriving Repr, DecidableEq

/-- Swap two positions of a list (both indices are in range in every Go run). -/
def swap2 (l : List α) (i j : Nat) : List α :=
  match l[i]?, l[j]? with
  | some vi, some vj => (l.set i vj).set j vi
  | _, _ => l

/-- The descending Fisher-Yates loop `for i := n-1; i > 0; i--` of
`SamplerGroup.RandomNodeSubset`: swap position `i` with a random `j ∈ [0, i]`. -/
def fyDown (l : List (Option Sampler)) : Nat → List Nat → List (Option Sampler)
  | 0, _ => l
  | i + 1, js => fyDown (swap2 l (i + 1) (js.headD 0 % (i + 2))) i js.tail

/-- The read-out loop of `RandomNodeSubset`:
`nodes = append(nodes, copySlice[ii].Sample())` for `ii` in `0..n-1`; calling
`Sample` through a nil `*Sampler` dereferences nil and panics. -/
def collectFrom (shuffled : List (Option Sampler)) (acc : List (Option Node)) :
    List Nat → Except GErr (List (Option Node))
  | [] => .ok acc
  | ii :: rest =>
      match shuffled.getD ii none with
      | none => .error .panicNilDeref
      | some smp => collectFrom shuffled (acc ++ [sample smp]) rest

/-- `sampler.go` SamplerGroup.RandomNodeSubset.  Faithful to the source:
`copySlice := make([]*Sampler, len(samplers))` pre-fills `len` nil pointers and
the subsequent `append`s place the real pointers *after* them; likewise
`nodes := make([]*Node, n)` pre-fills `n` nils before the read-out appends. -/
def randomNodeSubset (samplers : List Sampler) (n : Int) (js : List Nat) :
    Except GErr (List (Option Node)) :=
  if (samplers.length : Int) < n ∨ n ≤ 0 then .error .invalidArg
  else
    let len := samplers.length
    let copySlice : List (Option Sampler) :=
      List.replicate len none ++ samplers.map some
    let shuffled := fyDown copySlice (n.toNat - 1) js
    collectFrom shuffled (List.replicate n.toNat none) (List.range n.toNat)

/-- The ascending full shuffle `for i := 0; i < len(copySlice); i++` of
`gossip.go` randSubset (third variant), with `j` drawn in `[0, len)`. -/
def fyUp (l : List Node) (js : List Nat) : List Node :=
  (List.range l.length).foldl (fun acc i => swap2 acc i (js.getD i 0 % l.length)) l

/-- `gossip.go` randSubset (third variant): `n == 0` yields nil; `n` larger
than the list recurses with `n = len` (unfolded here one step); negative `n`
is an error; otherwise shuffle a copy and take the first `n`. -/
def randSubsetV3 (nodes : List Node) (n : Int) (js : List Nat) :
    Except GErr (List Node) :=
  if n = 0 then .ok []
  else if (nodes.length : Int) < n then
    (if nodes.length = 0 then .ok [] else .ok ((fyUp nodes js).take nodes.length))
  else if n < 0 then .error .invalidArg
  else .ok ((fyUp nodes js).take n.toNat)

/-- The inner loop of `gossip.go` trimDuplicates (third variant): skip nodes
whose `String()` was already seen, keep the first occurrence of each. -/
def trimAux (seen : List (List Nat)) (acc : List Node) : List Node → List Node
  | [] => acc
  | n :: rest =>
      if seen.contains (nodeString n) then trimAux seen acc rest
      else trimAux (seen ++ [nodeString n]) (acc ++ [n]) rest

/-- `gossip.go` trimDuplicates (third variant): combine the node lists keeping
one entry per distinct `Node.String()`, starting from an empty result. -/
def trimDuplicates (listNodes : List (List Node)) : List Node :=
  trimAux [] [] listNodes.flatten

/-- Go dereferences the `[]*Node` returned by `RandomNodeSubset` when the merge
reads the nodes; a nil entry panics. -/
def derefAll : List (Option Node) → Except GErr (List Node)
  | [] => .ok []
  | none :: _ => .error .panicNilDeref
  | some n :: rest => (derefAll rest).map (n :: ·)

/-- The end-of-round view rebuild of `gossip.go` Gossip.Start (third variant,
lines 595-613): under the push/pull admission condition draw the three random
subsets and install their deduplicated merge as the new main view; otherwise
leave the main view unchanged.  An error return models Go's `return err`
(which leaves the main view unchanged but exits `Start`) or a panic. -/
def roundViewStep (alphaL betaL gammaL : Int)
    (mainView pushViewNodes pullViewNodes : List Node) (pullFromNodesLen : Nat)
    (samplers : List Sampler) (js1 js2 js3 : List Nat) : Except GErr (List Node) :=
  if (pushViewNodes.length : Int) ≤ alphaL ∧ 0 < pushViewNodes.length ∧
      (0 < pullViewNodes.length ∨ pullFromNodesLen = 0) then
    match randSubsetV3 pushViewNodes alphaL js1 with
    | .error e => .error e
    | .ok pushSub =>
        match randSubsetV3 pullViewNodes betaL js2 with
        | .error e => .error e
        | .ok pullSub =>
            match randomNodeSubset samplers gammaL js3 with
            | .error e => .error e
            | .ok samplerPtrs =>
                match derefAll samplerPtrs with
                | .error e => .error e
                | .ok samplerSub =>
                    .ok (trimDuplicates [pullSub, pushSub, samplerSub])
  else .ok mainView

/-! ## `internal/gossip/packets.go`, `writer.go` (part_011), `parser.go` -/

def packetHeaderSize : Nat := 36
def signatureSize : Nat := 512
def peerIdentitySize : Nat := 32
def identitySize : Nat := 32
def maxPacketSize : Nat := 65535
def challengeSize : Nat := 32
def nonceSize : Nat := 8

def typeGossipPing : Nat := 0x0030
def typeGossipPong : Nat := 0x0031
def typeGossipPullRequest : Nat := 0x0040
def typeGossipPullResponse : Nat := 0x0041
def typeGossipPushRequest : Nat := 0x0050
def typeGossipPushChallenge : Nat := 0x0051
def typeGossipPush : Nat := 0x0052
def typeGossipMessage : Nat := 0x0060

/-- `parser.go` supportedIncomingMessageTypes. -/
def supportedIncomingMessageTypes : List Nat :=
  [typeGossipPing, typeGossipPong, typeGossipPullRequest, typeGossipPullResponse,
   typeGossipPush, typeGossipPushChallenge, typeGossipPushRequest, typeGossipMessage]

structure PacketHeaderM where
  size : Nat
  type : Nat
  senderIdentity : List Nat
deriving Repr, DecidableEq

def u16beBytes (x : Nat) : List Nat := [x / 256 % 256, x % 256]

/-- `writer.go` (part_011) PacketHeader.ToBytes. -/
def packetHeaderToBytes (h : PacketHeaderM) : List Nat :=
  u16beBytes h.size ++ u16beBytes h.type ++ h.senderIdentity

/-- `writer.go` (part_011) Node.ToBytes: `<Identity>\t<Address>\n`. -/
def nodeToBytes (n : Node) : List Nat := n.identity ++ [9] ++ n.address ++ [10]

structure PacketPing where
  header : PacketHeaderM
  signature : List Nat
deriving Repr, DecidableEq

structure PacketPong where
  header : PacketHeaderM
  signature : List Nat
deriving Repr, DecidableEq

structure PacketPullRequest where
  header : PacketHeaderM
  signature : List Nat
deriving Repr, DecidableEq

structure PacketPullResponse where
  header : PacketHeaderM
  nodes : List Node
  signature : List Nat
deriving Repr, DecidableEq

structure PacketPushRequest where
  header : PacketHeaderM
  signature : List Nat
deriving Repr, DecidableEq

structure PacketPushChallenge where
  header : PacketHeaderM
  difficulty : Nat
  challenge : List Nat
  signature : List Nat
deriving Repr, DecidableEq

structure PacketPush where
  header : PacketHeaderM
  challenge : List Nat
  nonce : List Nat
  node : Node
  signature : List Nat
deriving Repr, DecidableEq

structure PacketMessage where
  header : PacketHeaderM
  ttl : Nat
  dataType : Nat
  data : List Nat
  signature : List Nat
deriving Repr, DecidableEq

inductive CreateErr where
  | invalidComponentSize
deriving Repr, DecidableEq

/-- `packets.go` NewPacketPing: `Size = uint16(PacketHeaderSize + SignatureSize)`. -/
def newPacketPing (senderID : List Nat) : Except CreateErr PacketPing :=
  if senderID.length ≠ peerIdentitySize then .error .invalidComponentSize
  else .ok ⟨⟨(packetHeaderSize + signatureSize) % 65536, typeGossipPing, senderID⟩, []⟩

/-- `packets.go` NewPacketPong (the source returns a `*PacketPing` carrying the
Pong type code). -/
def newPacketPong (senderID : List Nat) : Except CreateErr PacketPing :=
  if senderID.length ≠ peerIdentitySize then .error .invalidComponentSize
  else .ok ⟨⟨(packetHeaderSize + signatureSize) % 65536, typeGossipPong, senderID⟩, []⟩

/-- `packets.go` NewPacketPullRequest. -/
def newPacketPullRequest (senderID : List Nat) : Except CreateErr PacketPullRequest :=
  if senderID.length ≠ peerIdentitySize then .error .invalidComponentSize
  else .ok ⟨⟨(packetHeaderSize + signatureSize) % 65536, typeGossipPullRequest, senderID⟩, []⟩

/-- `packets.go` NewPacketPullResponse: the size counts every node's wire form. -/
def newPacketPullResponse (senderID : List Nat) (nodes : List Node) :
    Except CreateErr PacketPullResponse :=
  let packetSize := packetHeaderSize + signatureSize +
    (nodes.map (fun n => (nodeToBytes n).length)).sum
  if senderID.length ≠ peerIdentitySize ∨ maxPacketSize < packetSize then
    .error .invalidComponentSize
  else .ok ⟨⟨packetSize % 65536, typeGossipPullResponse, senderID⟩, nodes, []⟩

/-- `packets.go` NewPacketPushRequest. -/
def newPacketPushRequest (senderID : List Nat) : Except CreateErr PacketPushRequest :=
  if senderID.length ≠ peerIdentitySize then .error .invalidComponentSize
  else .ok ⟨⟨(packetHeaderSize + signatureSize) % 65536, typeGossipPushRequest, senderID⟩, []⟩

/-- `packets.go` NewPacketPushChallenge:
`Size = uint16(PacketHeaderSize+SignatureSize+ChallengeSize) + 4`. -/
def newPacketPushChallenge (senderID : List Nat) (difficulty : Nat)
    (challenge : List Nat) : Except CreateErr PacketPushChallenge :=
  if senderID.length ≠ peerIdentitySize ∨ challenge.length ≠ challengeSize then
    .error .invalidComponentSize
  else
    .ok ⟨⟨(packetHeaderSize + signatureSize + challengeSize) % 65536 + 4,
          typeGossipPushChallenge, senderID⟩, difficulty, challenge, []⟩

/-- `packets.go` NewPacketPush. -/
def newPacketPush (senderID : List Nat) (challenge nonce : List Nat) (node : Node) :
    Except CreateErr PacketPush :=
  let packetSize := packetHeaderSize + signatureSize + challengeSize + nonceSize +
    (nodeToBytes node).length
  if senderID.length ≠ peerIdentitySize ∨ challenge.length ≠ challengeSize ∨
      nonce.length ≠ nonceSize ∨ maxPacketSize < packetSize then
    .error .invalidComponentSize
  else .ok ⟨⟨packetSize % 65536, typeGossipPush, senderID⟩, challenge, nonce, node, []⟩

/-- `packets.go` NewPacketMessage. -/
def newPacketMessage (senderID : List Nat) (ttl : Nat) (dataType : Nat)
    (data : List Nat) : Except CreateErr PacketMessage :=
  let packetSize := packetHeaderSize + signatureSize + 1 + 1 + 2 + data.length
  if senderID.length ≠ peerIdentitySize ∨ maxPacketSize < packetSize then
    .error .invalidComponentSize
  else .ok ⟨⟨packetSize % 65536, typeGossipMessage, senderID⟩, ttl, dataType, data, []⟩

/-- `writer.go` (part_011) PacketPing.ToBytes (header then footer). -/
def pingToBytes (p : PacketPing) : List Nat := packetHeaderToBytes p.header ++ p.signature

def pongToBytes (p : PacketPong) : List Nat := packetHeaderToBytes p.header ++ p.signature

def pullRequestToBytes (p : PacketPullRequest) : List Nat :=
  packetHeaderToBytes p.header ++ p.signature

def pullResponseToBytes (p : PacketPullResponse) : List Nat :=
  packetHeaderToBytes p.header ++ (p.nodes.map nodeToBytes).flatten ++ p.signature

def pushRequestToBytes (p : PacketPushRequest) : List Nat :=
  packetHeaderToBytes p.header ++ p.signature

def pushChallengeToBytes (p : PacketPushChallenge) : List Nat :=
  packetHeaderToBytes p.header ++ u32beBytes p.difficulty ++ p.challenge ++ p.signature

def pushToBytes (p : PacketPush) : List Nat :=
  packetHeaderToBytes p.header ++ p.challenge ++ p.nonce ++ nodeToBytes p.node ++ p.signature

def messageToBytes (p : PacketMessage) : List Nat :=
  packetHeaderToBytes p.header ++ [p.ttl % 256, 0] ++ u16beBytes p.dataType ++
  p.data ++ p.signature

inductive ParseErr where
  | headerInvalidSize
  | headerInvalidType
  | invalidSize
deriving Repr, DecidableEq

/-- `parser.go` ParsePacketHeader (the variant with the final size check,
lines 26-53): refuse inputs that are not exactly `PacketHeaderSize` bytes,
refuse unsupported types, then require `len(data) - PacketHeaderSize` to equal
the declared Size field. -/
def parsePacketHeader (data : List Nat) : Except ParseErr PacketHeaderM :=
  if data.length ≠ packetHeaderSize then .error .headerInvalidSize
  else
    let size := data.getD 0 0 * 256 + data.getD 1 0
    let messageType := data.getD 2 0 * 256 + data.getD 3 0
    let senderIdentity := (data.drop 4).take 32
    if !supportedIncomingMessageTypes.contains messageType then
      .error .headerInvalidType
    else if data.length - packetHeaderSize ≠ size then .error .invalidSize
    else .ok ⟨size, messageType, senderIdentity⟩

/-- The header-parsing step of `server.go` Server.handleIncomingBytes (line
172): the caller always passes exactly the first `PacketHeaderSize` bytes of
the decrypted packet. -/
def handleIncomingHeader (decryptedBytes : List Nat) : Except ParseErr PacketHeaderM :=
  parsePacketHeader (decryptedBytes.take packetHeaderSize)

/-! ## Concrete values used by witnesses and counterexamples -/

/-- The 64-byte key of the challenge tests: every byte `0x12`. -/
def exKey : List Nat := List.replicate 64 0x12

/-- The identity of the challenge tests: the bytes of the string "10.0.0.0". -/
def exId : List Nat := [0x31, 0x30, 0x2e, 0x30, 0x2e, 0x30, 0x2e, 0x30]

/-- The 8-byte challenge of the challenge tests. -/
def exChallenge : List Nat := [0xBB, 0x3B, 0xA2, 0xFE, 0x17, 0xED, 0xB9, 0x0A]

def exNonceOk : List Nat := [0x00, 0x00, 0x00, 0x00, 0x04, 0xF6, 0xA9, 0x03]

def exNonceBad : List Nat := [0x00, 0x00, 0x00, 0x00, 0x04, 0xF6, 0xA9, 0x02]

/-! ## Theorems -/

theorem sha256_length (msg : List Nat) : (sha256 msg).length = 32 := by
  simp [sha256, u32beBytes]

/-- **C5** (amended).  For `0 ≤ difficulty < 256`, `IsSolvedCorrectly` returns
true iff SHA-256(challenge ++ nonce) has at least `difficulty` leading zero
bits and some rotation key reproduces the challenge as the full 32-byte
SHA-256(key ++ identity); outside that range it returns InvalidDifficulty
regardless of the nonce.  With the single rotation key of 64 bytes 0x12 and
identity "10.0.0.0", the 8-byte challenge BB3BA2FE17EDB90A is rejected at
difficulty 28 even with the solving nonce ...A903 (the difficulty test passes
with exactly 28 leading zeros, but the challenge is only the 8-byte prefix of
the 32-byte key hash, so the rotation check fails); the nonce ...A902 and
difficulty 42 are rejected as claimed. -/
theorem c5_isSolvedCorrectly_spec :
    (∀ (rot : List (List Nat)) (ch no idn : List Nat) (d : Int), 0 ≤ d → d < 256 →
      (isSolvedCorrectly rot ch no idn d = .ok true ↔
        (d ≤ (countLeadingZeros (sha256 (ch ++ no)) : Int) ∧
         ∃ key ∈ rot, sha256 (key ++ idn) = ch))) ∧
    (∀ (rot : List (List Nat)) (ch no idn : List Nat) (d : Int), d < 0 ∨ 256 ≤ d →
      isSolvedCorrectly rot ch no idn d = .error .invalidDifficulty) ∧
    isSolvedCorrectly [exKey] exChallenge exNonceOk exId 28 = .ok false ∧
    isSolvedCorrectly [exKey] exChallenge exNonceBad exId 28 = .ok false ∧
    isSolvedCorrectly [exKey] exChallenge exNonceOk exId 42 = .ok false ∧
    countLeadingZeros (sha256 (exChallenge ++ exNonceOk)) = 28 := by
  refine ⟨?_, ?_, by rfl, by rfl, by rfl, by rfl⟩
  · intro rot ch no idn d h0 h256
    unfold isSolvedCorrectly
    rw [if_neg, ]
    · by_cases hlt : ((countLeadingZeros (sha256 (ch ++ no)) : Int) < d)
      · rw [if_pos hlt]
        constructor
        · intro h; exact absurd h (by simp)
        · rintro ⟨hle, -⟩; omega
      · rw [if_neg hlt]
        simp only [Except.ok.injEq, List.any_eq_true, beq_iff_eq]
        constructor
        · rintro h; exact ⟨by omega, by simpa using h⟩
        · rintro ⟨-, k, hk, he⟩; exact ⟨k, hk, he⟩
    · rw [sha256_length]; push_neg; omega
  · intro rot ch no idn d hd
    unfold isSolvedCorrectly
    rw [if_pos]
    rw [sha256_length]
    rcases hd with h | h
    · right; exact h
    · left; omega

theorem c5_isSolvedCorrectly_witness :
    isSolvedCorrectly [exKey] (sha256 (exKey ++ exId)) exNonceOk exId 0 = .ok true ∧
    isSolvedCorrectly [exKey] exChallenge exNonceOk exId 300 =
      .error .invalidDifficulty := by
  constructor
  · exact (c5_isSolvedCorrectly_spec.1 [exKey] (sha256 (exKey ++ exId)) exNonceOk exId 0
      (by norm_num) (by norm_num)).mpr
      ⟨Int.natCast_nonneg _, exKey, by simp, rfl⟩
  · exact c5_isSolvedCorrectly_spec.2.1 [exKey] exChallenge exNonceOk exId 300
      (Or.inr (by norm_num))

/-- **C5** counterexample to the claim as stated: the claim asserts the
difficulty-28 vector is accepted, but `IsSolvedCorrectly` returns `(false,
nil)` on it — the challenge equals only the first 8 bytes of
SHA-256(key ++ identity), never the full 32-byte hash the rotation scan
compares against. -/
theorem c5_isSolvedCorrectly_counterexample :
    isSolvedCorrectly [exKey] exChallenge exNonceOk exId 28 = .ok false ∧
    ¬ isSolvedCorrectly [exKey] exChallenge exNonceOk exId 28 = .ok true ∧
    (sha256 (exKey ++ exId)).take 8 = exChallenge := by
  refine ⟨by rfl, ?_, by rfl⟩
  intro h
  rw [show isSolvedCorrectly [exKey] exChallenge exNonceOk exId 28 = .ok false from rfl]
    at h
  exact absurd (Except.ok.inj h) (by simp)

theorem bytesLt_irrefl : ∀ a : List Nat, bytesLt a a = false
  | [] => rfl
  | x :: xs => by simp [bytesLt, bytesLt_irrefl xs]

theorem bytesLt_asymm : ∀ a b : List Nat, bytesLt a b = true → bytesLt b a = false
  | [], [] => by simp [bytesLt]
  | [], _ :: _ => by simp [bytesLt]
  | _ :: _, [] => by simp [bytesLt]
  | a :: as, b :: bs => by
      by_cases hab : a < b
      · intro _; simp [bytesLt, hab, Nat.not_lt_of_lt hab, Nat.ne_of_lt hab]
      · by_cases hba : b < a
        · simp [bytesLt, hab, hba]
        · have : a = b := by omega
          subst this
          simpa [bytesLt] using bytesLt_asymm as bs

theorem samplerNext_full (bias : List Nat) (c y : Node) :
    samplerNext { bias := bias, elem := some c, currentElemHash := hashOf bias c } y =
      (if bytesLt (hashOf bias y) (hashOf bias c) = true then
        { bias := bias, elem := some y, currentElemHash := hashOf bias y }
      else { bias := bias, elem := some c, currentElemHash := hashOf bias c }) := by
  simp only [samplerNext, hashOf, Option.isNone_some, Bool.false_or]

/-- Folding `Next` from a state already holding `c` with its own hash yields
the strict minimiser of `{c} ∪ xs` whenever one exists. -/
theorem samplerFold_full (bias : List Nat) :
    ∀ (xs : List Node) (c m : Node), (m = c ∨ m ∈ xs) →
      (∀ x, (x = c ∨ x ∈ xs) →
        x = m ∨ bytesLt (hashOf bias m) (hashOf bias x) = true) →
      (xs.foldl samplerNext
        { bias := bias, elem := some c, currentElemHash := hashOf bias c }).elem = some m
  | [], c, m, hm, _ => by
      rcases hm with rfl | h
      · rfl
      · cases h
  | y :: ys, c, m, hm, hmin => by
      rw [List.foldl_cons, samplerNext_full]
      by_cases hlt : bytesLt (hashOf bias y) (hashOf bias c) = true
      · rw [if_pos hlt]
        refine samplerFold_full bias ys y m ?_ ?_
        · rcases hm with rfl | hm2
          · rcases hmin y (Or.inr (List.mem_cons_self y ys)) with rfl | hmy
            · exact Or.inl rfl
            · exact absurd hlt (by rw [bytesLt_asymm _ _ hmy]; simp)
          · rcases List.mem_cons.mp hm2 with rfl | h
            · exact Or.inl rfl
            · exact Or.inr h
        · intro x hx
          refine hmin x ?_
          rcases hx with rfl | h
          · exact Or.inr (List.mem_cons_self x ys)
          · exact Or.inr (List.mem_cons_of_mem y h)
      · rw [if_neg hlt]
        refine samplerFold_full bias ys c m ?_ ?_
        · rcases hm with rfl | hm2
          · exact Or.inl rfl
          · rcases List.mem_cons.mp hm2 with rfl | h
            · rcases hmin c (Or.inl rfl) with rfl | hmc
              · exact Or.inl rfl
              · exact absurd hmc (by simpa using hlt)
            · exact Or.inr h
        · intro x hx
          refine hmin x ?_
          rcases hx with rfl | h
          · exact Or.inl rfl
          · exact Or.inr (List.mem_cons_of_mem y h)

/-- **C3**.  Right after `Init` the sampler's `Sample()` is `none`; and for a
fixed bias and a stream of nodes with pairwise distinct identities, `Sample()`
after feeding the whole stream through `Next` returns the node minimising
SHA-256(bias ++ identity) under lexicographic byte comparison (stated for the
strict minimiser, which is unique whenever it exists). -/
theorem c3_sampler_minwise :
    (∀ bias, sample (samplerInit bias) = none) ∧
    (∀ (bias : List Nat) (l : List Node) (m : Node),
      l.Pairwise (fun a b => a.identity ≠ b.identity) →
      m ∈ l →
      (∀ x ∈ l, x = m ∨ bytesLt (hashOf bias m) (hashOf bias x) = true) →
      sample (l.foldl samplerNext (samplerInit bias)) = some m) := by
  refine ⟨fun _ => rfl, ?_⟩
  intro bias l m _ hm hmin
  cases l with
  | nil => cases hm
  | cons x xs =>
      have hstep : samplerNext (samplerInit bias) x =
          { bias := bias, elem := some x, currentElemHash := hashOf bias x } := by
        simp [samplerNext, samplerInit, hashOf]
      rw [sample, List.foldl_cons, hstep]
      refine samplerFold_full bias xs x m ?_ ?_
      · rcases List.mem_cons.mp hm with rfl | h
        · exact Or.inl rfl
        · exact Or.inr h
      · intro y hy
        rcases hy with rfl | h
        · exact hmin y (List.mem_cons_self y xs)
        · exact hmin y (List.mem_cons_of_mem x h)

def exNode0 : Node := { identity := [0], address := [] }

def exNode1 : Node := { identity := [1], address := [] }

theorem c3_sampler_minwise_witness :
    sample (samplerInit [37]) = none ∧
    sample ([exNode0, exNode1].foldl samplerNext (samplerInit [])) = some exNode1 := by
  constructor
  · exact c3_sampler_minwise.1 [37]
  · exact c3_sampler_minwise.2 [] [exNode0, exNode1] exNode1
      (by decide) (by decide) (by decide)

theorem hasPeerCondition_add_self :
    ∀ (ps : PeerState) (idn : List Nat) (c : PeerCondition),
      hasPeerCondition (addPeerCondition ps idn c) idn c = true
  | [], idn, c => by simp [addPeerCondition, hasPeerCondition, psLookup]
  | (k, cs) :: rest, idn, c => by
      by_cases hk : k = idn
      · subst hk
        by_cases hc : c ∈ cs
        · simp [addPeerCondition, hasPeerCondition, psLookup, hc]
        · simp [addPeerCondition, hasPeerCondition, psLookup, hc]
      · have ih := hasPeerCondition_add_self rest idn c
        simp only [hasPeerCondition] at ih
        simp only [addPeerCondition, if_neg hk, hasPeerCondition, psLookup]
        exact ih

theorem hasPeerCondition_add_preserve :
    ∀ (ps : PeerState) (idn : List Nat) (c c' : PeerCondition),
      hasPeerCondition ps idn c = true →
      hasPeerCondition (addPeerCondition ps idn c') idn c = true
  | [], idn, c, c' => by simp [hasPeerCondition, psLookup]
  | (k, cs) :: rest, idn, c, c' => by
      intro h
      by_cases hk : k = idn
      · subst hk
        have hcs : c ∈ cs := by
          simpa [hasPeerCondition, psLookup] using h
        by_cases hc' : c' ∈ cs
        · simpa [addPeerCondition, hasPeerCondition, psLookup, hc'] using hcs
        · simp [addPeerCondition, hasPeerCondition, psLookup, hc', hcs]
      · have hr : hasPeerCondition rest idn c = true := by
          simpa [hasPeerCondition, psLookup, hk] using h
        have ih := hasPeerCondition_add_preserve rest idn c c' hr
        simp only [hasPeerCondition] at ih
        simp only [addPeerCondition, if_neg hk, hasPeerCondition, psLookup]
        exact ih

theorem challengeOkOf_eq_true (e : Except ChalError Bool) :
    challengeOkOf e = true ↔ e = .ok true := by
  cases e with
  | error a => simp [challengeOkOf]
  | ok b => cases b <;> simp [challengeOkOf]

/-- Case analysis of handlePush: admission condition, determinism of the
enqueued node, the DenyPush effect, and the AllowMessage effect. -/
theorem handlePush_cases :
    (∀ (rot : List (List Nat)) (diff : Nat) (ps : PeerState) (pkt : PushPacket),
      ((handlePush rot diff ps pkt).2 = some pkt.node ↔
        (hasPeerCondition ps pkt.senderIdentity .denyPush = false ∧
         isSolvedCorrectly rot pkt.challenge pkt.nonce pkt.senderIdentity (diff : Int) =
           .ok true ∧
         pkt.senderIdentity = pkt.node.identity)) ∧
      ((handlePush rot diff ps pkt).2 ≠ none →
        (handlePush rot diff ps pkt).2 = some pkt.node) ∧
      hasPeerCondition (handlePush rot diff ps pkt).1 pkt.senderIdentity .denyPush =
        true ∧
      ((handlePush rot diff ps pkt).2 = some pkt.node →
        hasPeerCondition (handlePush rot diff ps pkt).1 pkt.senderIdentity
          .allowMessage = true)) := by
    intro rot diff ps pkt
    by_cases hdeny : hasPeerCondition ps pkt.senderIdentity .denyPush = true
    · exact ⟨by simp [handlePush, hdeny], by simp [handlePush, hdeny],
        by simp [handlePush, hdeny], by simp [handlePush, hdeny]⟩
    · have hdeny' : hasPeerCondition ps pkt.senderIdentity .denyPush = false := by
        simpa using hdeny
      by_cases hok : challengeOkOf
          (isSolvedCorrectly rot pkt.challenge pkt.nonce pkt.senderIdentity
            (diff : Int)) = true
      · by_cases hid : pkt.senderIdentity = pkt.node.identity
        · have hidne : ¬(pkt.senderIdentity ≠ pkt.node.identity) := fun h => h hid
          refine ⟨?_, ?_, ?_, ?_⟩
          · simp [handlePush, hdeny', hok, hidne, eq_true hid, ← challengeOkOf_eq_true]
          · simp [handlePush, hdeny', hok, hidne]
          · simp only [handlePush, hdeny', hok, hidne, Bool.false_eq_true, if_false,
              Bool.not_true, if_neg hidne]
            exact hasPeerCondition_add_preserve _ _ _ _ (hasPeerCondition_add_self _ _ _)
          · intro _
            simp only [handlePush, hdeny', hok, hidne, Bool.false_eq_true, if_false,
              Bool.not_true, if_neg hidne]
            exact hasPeerCondition_add_self _ _ _
        · refine ⟨?_, ?_, ?_, ?_⟩
          · simp [handlePush, hdeny', hok, hid]
          · simp [handlePush, hdeny', hok, hid]
          · simp only [handlePush, hdeny', hok, Bool.false_eq_true, if_false,
              Bool.not_true, if_pos hid]
            exact hasPeerCondition_add_self _ _ _
          · simp [handlePush, hdeny', hok, hid]
      · have hok' : challengeOkOf
            (isSolvedCorrectly rot pkt.challenge pkt.nonce pkt.senderIdentity
              (diff : Int)) = false := by simpa using hok
        refine ⟨?_, ?_, ?_, ?_⟩
        · simp only [handlePush, hdeny', hok', Bool.false_eq_true, if_false,
            Bool.not_false, if_true]
          simp [← challengeOkOf_eq_true, hok']
        · simp [handlePush, hdeny', hok']
        · simp only [handlePush, hdeny', hok', Bool.false_eq_true, if_false,
            Bool.not_false, if_true]
          exact hasPeerCondition_add_self _ _ _
        · simp [handlePush, hdeny', hok']

/-- **C1**.  A Push from P is enqueued into the push-view iff `DenyPush(P)` is
not set, the challenge solution verifies against the current key rotation, and
the pushed node's identity equals P's identity; processing any Push from P sets
`DenyPush(P)`, and acceptance additionally sets `AllowMessage(P)`; consequently
a second Push from the same sender in the same round is never enqueued, and a
Push whose embedded node identity differs from the sender identity is never
enqueued. -/
theorem c1_push_gating :
    (∀ (rot : List (List Nat)) (diff : Nat) (ps : PeerState) (pkt : PushPacket),
      ((handlePush rot diff ps pkt).2 = some pkt.node ↔
        (hasPeerCondition ps pkt.senderIdentity .denyPush = false ∧
         isSolvedCorrectly rot pkt.challenge pkt.nonce pkt.senderIdentity (diff : Int) =
           .ok true ∧
         pkt.senderIdentity = pkt.node.identity)) ∧
      hasPeerCondition (handlePush rot diff ps pkt).1 pkt.senderIdentity .denyPush =
        true ∧
      ((handlePush rot diff ps pkt).2 = some pkt.node →
        hasPeerCondition (handlePush rot diff ps pkt).1 pkt.senderIdentity
          .allowMessage = true)) ∧
    (∀ (rot : List (List Nat)) (diff : Nat) (ps : PeerState) (pkt1 pkt2 : PushPacket),
      pkt1.senderIdentity = pkt2.senderIdentity →
      (handlePush rot diff (handlePush rot diff ps pkt1).1 pkt2).2 = none) ∧
    (∀ (rot : List (List Nat)) (diff : Nat) (ps : PeerState) (pkt : PushPacket),
      pkt.senderIdentity ≠ pkt.node.identity →
      (handlePush rot diff ps pkt).2 = none) := by
  refine ⟨?_, ?_, ?_⟩
  · intro rot diff ps pkt
    obtain ⟨h1, _, h3, h4⟩ := handlePush_cases rot diff ps pkt
    exact ⟨h1, h3, h4⟩
  · intro rot diff ps pkt1 pkt2 hsame
    have hd := (handlePush_cases rot diff ps pkt1).2.2.1
    rw [hsame] at hd
    generalize hS : (handlePush rot diff ps pkt1).1 = S at hd ⊢
    simp [handlePush, hd]
  · intro rot diff ps pkt hid
    cases h2 : (handlePush rot diff ps pkt).2 with
    | none => rfl
    | some n =>
        have hne : (handlePush rot diff ps pkt).2 ≠ none := by simp [h2]
        have hsome := (handlePush_cases rot diff ps pkt).2.1 hne
        exact absurd ((handlePush_cases rot diff ps pkt).1.mp hsome).2.2 hid

def exPushOk : PushPacket :=
  { senderIdentity := exId, challenge := sha256 (exKey ++ exId), nonce := exNonceOk,
    node := { identity := exId, address := [] } }

def exPushBad : PushPacket :=
  { senderIdentity := exId, challenge := sha256 (exKey ++ exId), nonce := exNonceOk,
    node := { identity := [0], address := [] } }

theorem c1_push_gating_witness :
    (handlePush [exKey] 0 [] exPushOk).2 = some exPushOk.node ∧
    (handlePush [exKey] 0 (handlePush [exKey] 0 [] exPushOk).1 exPushOk).2 = none ∧
    (handlePush [exKey] 0 [] exPushBad).2 = none := by
  refine ⟨?_, ?_, ?_⟩
  · exact ((c1_push_gating.1 [exKey] 0 [] exPushOk).1).mpr ⟨by rfl, by rfl, by rfl⟩
  · exact c1_push_gating.2.1 [exKey] 0 [] exPushOk exPushOk rfl
  · exact c1_push_gating.2.2 [exKey] 0 [] exPushBad (by decide)

theorem scanMessages_of_nodup :
    ∀ (msgs : List SpreadMsg) (dt : Nat) (h sender : List Nat),
      (∀ m ∈ msgs, ¬(m.dataType = dt ∧ m.dataHash = h)) →
      scanMessages msgs dt h sender =
        some (msgs.countP fun m => decide (m.sourceIdentity = sender))
  | [], _, _, _, _ => by simp [scanMessages]
  | m :: rest, dt, h, sender, hnd => by
      have hm : ¬(m.dataType = dt ∧ m.dataHash = h) := hnd m (List.mem_cons_self m rest)
      rw [scanMessages, if_neg hm,
        scanMessages_of_nodup rest dt h sender
          (fun x hx => hnd x (List.mem_cons_of_mem m hx))]
      simp [List.countP_cons]

theorem scanMessages_eq_none_iff :
    ∀ (msgs : List SpreadMsg) (dt : Nat) (h sender : List Nat),
      (scanMessages msgs dt h sender = none ↔
        ∃ m ∈ msgs, m.dataType = dt ∧ m.dataHash = h)
  | [], _, _, _ => by simp [scanMessages]
  | m :: rest, dt, h, sender => by
      by_cases hm : m.dataType = dt ∧ m.dataHash = h
      · simp [scanMessages, hm]
      · rw [scanMessages, if_neg hm]
        rcases hrest : scanMessages rest dt h sender with _ | c
        · have := (scanMessages_eq_none_iff rest dt h sender).mp hrest
          simp only [true_iff]
          rcases this with ⟨x, hx, hx2⟩
          exact ⟨x, List.mem_cons_of_mem m hx, hx2⟩
        · have hnone : ¬∃ x ∈ rest, x.dataType = dt ∧ x.dataHash = h := by
            rw [← scanMessages_eq_none_iff rest dt h sender, hrest]
            simp
          simp only [reduceCtorEq, false_iff, not_exists]
          intro x hx
          rcases List.mem_cons.mp hx.1 with rfl | hx2
          · exact hm hx.2
          · exact hnone ⟨x, hx2, hx.2⟩

/-- **C7** (amended).  With `AllowMessage(P)` set and the message not a
duplicate, an incoming gossip message from P is rejected exactly when the
store already holds *more than 50* messages whose source identity is P, and is
appended otherwise — so the 51st message from the same sender is still
accepted and the 52nd is the first one rejected. -/
theorem c7_flood_limit :
    ∀ (ps : PeerState) (msgs : List SpreadMsg) (pkt : MsgPacket),
      hasPeerCondition ps pkt.senderIdentity .allowMessage = true →
      (∀ m ∈ msgs, ¬(m.dataType = pkt.dataType ∧ m.dataHash = sha256 pkt.data)) →
      ((50 < msgs.countP (fun m => decide (m.sourceIdentity = pkt.senderIdentity)) →
          handleMessage ps msgs pkt = msgs) ∧
       (msgs.countP (fun m => decide (m.sourceIdentity = pkt.senderIdentity)) ≤ 50 →
          handleMessage ps msgs pkt = msgs ++ [receivedMsgOf pkt])) := by
  intro ps msgs pkt hgate hnd
  rw [handleMessage, hgate,
    scanMessages_of_nodup msgs pkt.dataType (sha256 pkt.data) pkt.senderIdentity hnd]
  constructor
  · intro hgt
    simp [hgt]
  · intro hle
    simp [Nat.not_lt_of_le hle, receivedMsgOf]

def psC7 : PeerState := [([5], [PeerCondition.allowMessage])]

def store50 : List SpreadMsg :=
  (List.range 50).map fun i =>
    { localTTL := 255, ttl := 0, dataType := 0, data := [], dataHash := [i],
      sourceIdentity := [5] }

def pktC7 : MsgPacket := { senderIdentity := [5], ttl := 1, dataType := 0, data := [7] }

/-- **C7** counterexample to the claim as stated: with exactly 50 messages from
sender P already stored (none a duplicate of the incoming one), the incoming
51st message is *accepted* (the store grows to 51), contradicting "the 51st
message received from the same sender is rejected" — the guard fires only at
`count > 50`, i.e. from the 52nd message on. -/
theorem c7_flood_limit_counterexample :
    store50.length = 50 ∧
    store50.all (fun m => m.sourceIdentity == [5]) = true ∧
    pktC7.senderIdentity = [5] ∧
    (handleMessage psC7 store50 pktC7).length = 51 := by decide

theorem c7_flood_limit_witness :
    handleMessage psC7 [] pktC7 = [receivedMsgOf pktC7] :=
  (c7_flood_limit psC7 [] pktC7 (by decide) (by simp)).2 (by decide)

theorem filterMap_guard_comp (f : α → β) (p : β → Prop) [DecidablePred p] :
    ∀ l : List α,
      (l.filterMap fun a => if p (f a) then some (f a) else none) =
        (l.map f).filter fun b => decide (p b)
  | [] => rfl
  | a :: l => by
      rw [List.filterMap_cons, List.map_cons, List.filter_cons]
      by_cases hp : p (f a)
      · rw [if_pos hp, filterMap_guard_comp f p l]
        simp [hp]
      · rw [if_neg hp, filterMap_guard_comp f p l]
        simp [hp]

/-- The decrement applied at the round boundary. -/
def decayN : Nat → List SpreadMsg → List SpreadMsg
  | 0, msgs => msgs
  | k + 1, msgs => decayN k (decayMessages msgs)

/-- A message spread locally with ttl=3 (the claim's scenario). -/
def exStore3 : List SpreadMsg := spreadMessage [1] [] 3 7 []

/-- **C6** (amended).  Every round boundary decrements each stored message's
`local_ttl` by exactly one and removes precisely those whose decremented
`local_ttl` is −24 *or below* (the code keeps messages with `LocalTTL > −24`),
leaving every other message and all other fields unchanged; a message is
offered for forwarding only while `local_ttl > 0`; so a message inserted
locally with ttl=3 is forwardable during rounds 1-3 only (decay counts 0-2),
is still stored for dedup through 24 grace rounds, and is gone after the
27th boundary. -/
theorem c6_ttl_decay :
    (∀ msgs, decayMessages msgs =
      (msgs.map fun m => { m with localTTL := m.localTTL - 1 }).filter
        (fun m => decide (-24 < m.localTTL))) ∧
    (∀ (msgs : List SpreadMsg) (m : SpreadMsg),
      m ∈ forwardable msgs ↔ m ∈ msgs ∧ 0 < m.localTTL) ∧
    (∀ k, k < 3 →
      (decayN k exStore3).length = 1 ∧ forwardable (decayN k exStore3) = decayN k exStore3) ∧
    (∀ k, k < 27 → 3 ≤ k →
      (decayN k exStore3).length = 1 ∧ forwardable (decayN k exStore3) = []) ∧
    decayN 27 exStore3 = [] := by
  refine ⟨?_, ?_, by decide, by decide, by decide⟩
  · intro msgs
    exact filterMap_guard_comp (fun m => { m with localTTL := m.localTTL - 1 })
      (fun m' => (-24 : Int) < m'.localTTL) msgs
  · intro msgs m
    simp [forwardable, List.mem_filter]

def exMsgNeg23 : SpreadMsg :=
  { localTTL := -23, ttl := 0, dataType := 0, data := [], dataHash := [],
    sourceIdentity := [] }

/-- **C6** counterexample to the claim as stated: a stored message whose
`local_ttl` decrements to exactly −24 is removed by the round boundary, yet
−24 has not "dropped below −24" — the code evicts at `≤ −24`, not `< −24`
(evicting only below −24 would also contradict the claim's own "purged after
round 27" for ttl=3). -/
theorem c6_ttl_decay_counterexample :
    decayMessages [exMsgNeg23] = [] ∧ ¬((-23 : Int) - 1 < -24) := by decide

theorem c6_ttl_decay_witness :
    decayN 27 exStore3 = [] ∧ (decayN 2 exStore3).length = 1 ∧
    decayMessages [] = [] := by
  refine ⟨c6_ttl_decay.2.2.2.2, (c6_ttl_decay.2.2.1 2 (by norm_num)).1, ?_⟩
  rw [c6_ttl_decay.1 []]
  rfl

/-- No two stored messages share the same (data_type, data_hash) pair. -/
def NoDupPairs (msgs : List SpreadMsg) : Prop :=
  msgs.Pairwise fun m1 m2 => ¬(m1.dataType = m2.dataType ∧ m1.dataHash = m2.dataHash)

/-- **C8** (amended).  The receive path deduplicates by (data_type, data_hash):
`handleMessage` leaves the store unchanged when the pair is already present and
preserves the no-duplicate invariant, so receiving the same (data_type, data)
twice leaves one entry.  The local `spreadMessage` path, however, performs no
deduplication: it appends unconditionally, growing the store by one entry even
when the pair is already stored. -/
theorem c8_message_dedup :
    (∀ (ps : PeerState) (msgs : List SpreadMsg) (pkt : MsgPacket),
      (∃ m ∈ msgs, m.dataType = pkt.dataType ∧ m.dataHash = sha256 pkt.data) →
      handleMessage ps msgs pkt = msgs) ∧
    (∀ (ps : PeerState) (msgs : List SpreadMsg) (pkt : MsgPacket),
      NoDupPairs msgs → NoDupPairs (handleMessage ps msgs pkt)) ∧
    (∀ (own : List Nat) (msgs : List SpreadMsg) (ttl dataType : Nat) (data : List Nat),
      spreadMessage own msgs ttl dataType data =
        msgs ++ [{ localTTL := (ttl : Int), ttl := ttl, dataType := dataType,
                   data := data, dataHash := sha256 data, sourceIdentity := own }]) := by
  refine ⟨?_, ?_, fun _ _ _ _ _ => rfl⟩
  · intro ps msgs pkt hdup
    rw [handleMessage]
    by_cases hgate : hasPeerCondition ps pkt.senderIdentity .allowMessage = true
    · rw [hgate]
      rw [(scanMessages_eq_none_iff msgs pkt.dataType (sha256 pkt.data)
        pkt.senderIdentity).mpr hdup]
      rfl
    · have : hasPeerCondition ps pkt.senderIdentity .allowMessage = false := by
        simpa using hgate
      rw [this]
      rfl
  · intro ps msgs pkt hnd
    rw [handleMessage]
    by_cases hgate : hasPeerCondition ps pkt.senderIdentity .allowMessage = true
    · rw [hgate]
      rcases hscan : scanMessages msgs pkt.dataType (sha256 pkt.data)
          pkt.senderIdentity with _ | c
      · exact hnd
      · show NoDupPairs (if 50 < c then msgs else msgs ++ [receivedMsgOf pkt])
        by_cases hc : 50 < c
        · rw [if_pos hc]
          exact hnd
        · rw [if_neg hc]
          have hnodup : ∀ m ∈ msgs,
              ¬(m.dataType = pkt.dataType ∧ m.dataHash = sha256 pkt.data) := by
            intro m hm hcontra
            have : scanMessages msgs pkt.dataType (sha256 pkt.data)
                pkt.senderIdentity = none :=
              (scanMessages_eq_none_iff _ _ _ _).mpr ⟨m, hm, hcontra⟩
            rw [hscan] at this
            cases this
          rw [NoDupPairs, List.pairwise_append]
          refine ⟨hnd, List.pairwise_singleton _ _, ?_⟩
          intro a ha b hb
          rcases List.mem_singleton.mp hb with rfl
          simpa [receivedMsgOf] using hnodup a ha
    · have : hasPeerCondition ps pkt.senderIdentity .allowMessage = false := by
        simpa using hgate
      rw [this]
      exact hnd

/-- **C8** counterexample to the claim as stated: spreading the same
(data_type, data) twice through `spreadMessage` leaves *two* entries with the
same (data_type, data_hash) pair, not one — the local insert path performs no
dedup. -/
theorem c8_message_dedup_counterexample :
    (spreadMessage [2] (spreadMessage [2] [] 5 7 []) 5 7 []).countP
      (fun m => decide (m.dataType = 7 ∧ m.dataHash = sha256 [])) = 2 := by decide

theorem c8_message_dedup_witness :
    handleMessage psC7 [receivedMsgOf pktC7] pktC7 = [receivedMsgOf pktC7] ∧
    (spreadMessage [2] [] 5 7 []).length = 1 := by
  constructor
  · exact c8_message_dedup.1 psC7 [receivedMsgOf pktC7] pktC7
      ⟨receivedMsgOf pktC7, by simp, by simp [receivedMsgOf]⟩
  · rw [c8_message_dedup.2.2 [2] [] 5 7 []]
    rfl

theorem packetHeaderToBytes_length (h : PacketHeaderM)
    (hl : h.senderIdentity.length = 32) : (packetHeaderToBytes h).length = 36 := by
  simp [packetHeaderToBytes, u16beBytes, hl]

theorem take_packetHeader (h : PacketHeaderM) (rest : List Nat)
    (hl : h.senderIdentity.length = 32) :
    (packetHeaderToBytes h ++ rest).take packetHeaderSize = packetHeaderToBytes h := by
  rw [packetHeaderSize, ← packetHeaderToBytes_length h hl, List.take_left]

/-- On any header serialised by `PacketHeader.ToBytes` with a 32-byte identity,
a supported type and a nonzero size below 2^16, `ParsePacketHeader` fails with
`ErrParsePacketInvalidSize`: it receives exactly 36 bytes, so
`len(data) - PacketHeaderSize = 0` never equals the declared size. -/
theorem parsePacketHeader_constructed (h : PacketHeaderM)
    (hl : h.senderIdentity.length = 32) (hsz : h.size < 65536) (hsz0 : h.size ≠ 0)
    (hty : supportedIncomingMessageTypes.contains h.type = true) (htyv : h.type < 65536) :
    parsePacketHeader (packetHeaderToBytes h) = .error .invalidSize := by
  have hlen := packetHeaderToBytes_length h hl
  have hshape : packetHeaderToBytes h =
      h.size / 256 % 256 :: h.size % 256 :: h.type / 256 % 256 :: h.type % 256 ::
        h.senderIdentity := by
    simp [packetHeaderToBytes, u16beBytes]
  simp only [parsePacketHeader, packetHeaderSize, hlen]
  rw [if_neg (by omega : ¬(36 ≠ 36))]
  rw [hshape]
  simp only [List.getD_cons_zero, List.getD_cons_succ]
  have hsize' : h.size / 256 % 256 * 256 + h.size % 256 = h.size := by omega
  have htype' : h.type / 256 % 256 * 256 + h.type % 256 = h.type := by omega
  rw [hsize', htype', hty]
  simp only [Bool.not_true, Bool.false_eq_true, if_false]
  rw [if_pos (by omega : 36 - 36 ≠ h.size)]

/-- **C10**.  The ParsePacketHeader variant under `parser.go:26-53` receives
exactly the first 36 bytes from `handleIncomingBytes` and then compares
`len(data) − PacketHeaderSize` (always 0) with the declared Size: every
36-byte input with a supported type and nonzero Size yields
`ErrParsePacketInvalidSize`, a successful parse forces Size = 0 — and every
packet constructor sets Size to the full packet length, at least
header + signature = 36 + 512 = 548, so no constructor-built header passes. -/
theorem c10_header_size_check :
    (∀ data : List Nat, data.length = 36 →
      supportedIncomingMessageTypes.contains (data.getD 2 0 * 256 + data.getD 3 0) =
        true →
      data.getD 0 0 * 256 + data.getD 1 0 ≠ 0 →
      parsePacketHeader data = .error .invalidSize) ∧
    (∀ (data : List Nat) (h : PacketHeaderM),
      parsePacketHeader data = .ok h → h.size = 0) ∧
    (∀ (d : List Nat) (h : PacketHeaderM),
      handleIncomingHeader d = .ok h → h.size = 0) ∧
    (∀ sid p, newPacketPing sid = .ok p → p.header.size = 548) ∧
    (∀ sid p, newPacketPong sid = .ok p → p.header.size = 548) ∧
    (∀ sid p, newPacketPullRequest sid = .ok p → p.header.size = 548) ∧
    (∀ sid nodes p, newPacketPullResponse sid nodes = .ok p → 548 ≤ p.header.size) ∧
    (∀ sid p, newPacketPushRequest sid = .ok p → p.header.size = 548) ∧
    (∀ sid diff ch p, newPacketPushChallenge sid diff ch = .ok p →
      p.header.size = 584) ∧
    (∀ sid ch no node p, newPacketPush sid ch no node = .ok p → 548 ≤ p.header.size) ∧
    (∀ sid ttl dt d p, newPacketMessage sid ttl dt d = .ok p → 548 ≤ p.header.size) := by
  have hp2 : ∀ (data : List Nat) (h : PacketHeaderM),
      parsePacketHeader data = .ok h → h.size = 0 := by
    intro data h hok
    simp only [parsePacketHeader] at hok
    by_cases h1 : data.length ≠ packetHeaderSize
    · rw [if_pos h1] at hok; cases hok
    · rw [if_neg h1] at hok
      push_neg at h1
      cases hc : supportedIncomingMessageTypes.contains
          (data.getD 2 0 * 256 + data.getD 3 0) with
      | false => rw [hc] at hok; simp at hok
      | true =>
          rw [hc] at hok
          simp only [Bool.not_true, Bool.false_eq_true, if_false] at hok
          by_cases h3 : data.length - packetHeaderSize ≠ data.getD 0 0 * 256 + data.getD 1 0
          · rw [if_pos h3] at hok; cases hok
          · rw [if_neg h3] at hok
            push_neg at h3
            rw [← Except.ok.inj hok]
            show data.getD 0 0 * 256 + data.getD 1 0 = 0
            simp only [packetHeaderSize] at h1 h3
            omega
  refine ⟨?_, hp2, ?_, ?_, ?_, ?_, ?_, ?_, ?_, ?_, ?_⟩
  · intro data hlen hsupp hsz
    simp only [parsePacketHeader, packetHeaderSize, hlen]
    rw [if_neg (by omega : ¬(36 ≠ 36))]
    rw [hsupp]
    simp only [Bool.not_true, Bool.false_eq_true, if_false]
    rw [if_pos (by omega : 36 - 36 ≠ data.getD 0 0 * 256 + data.getD 1 0)]
  · intro d h hok
    exact hp2 (d.take packetHeaderSize) h hok
  · intro sid p hok
    simp only [newPacketPing] at hok
    by_cases hl : sid.length ≠ peerIdentitySize
    · rw [if_pos hl] at hok; cases hok
    · rw [if_neg hl] at hok
      rw [← Except.ok.inj hok]
      show (packetHeaderSize + signatureSize) % 65536 = 548
      decide
  · intro sid p hok
    simp only [newPacketPong] at hok
    by_cases hl : sid.length ≠ peerIdentitySize
    · rw [if_pos hl] at hok; cases hok
    · rw [if_neg hl] at hok
      rw [← Except.ok.inj hok]
      show (packetHeaderSize + signatureSize) % 65536 = 548
      decide
  · intro sid p hok
    simp only [newPacketPullRequest] at hok
    by_cases hl : sid.length ≠ peerIdentitySize
    · rw [if_pos hl] at hok; cases hok
    · rw [if_neg hl] at hok
      rw [← Except.ok.inj hok]
      show (packetHeaderSize + signatureSize) % 65536 = 548
      decide
  · intro sid nodes p hok
    simp only [newPacketPullResponse] at hok
    by_cases hc : sid.length ≠ peerIdentitySize ∨
        maxPacketSize < packetHeaderSize + signatureSize +
          (nodes.map fun n => (nodeToBytes n).length).sum
    · rw [if_pos hc] at hok; cases hok
    · rw [if_neg hc] at hok
      rw [← Except.ok.inj hok]
      push_neg at hc
      have h2 := hc.2
      show 548 ≤ (packetHeaderSize + signatureSize +
        (nodes.map fun n => (nodeToBytes n).length).sum) % 65536
      simp only [maxPacketSize, packetHeaderSize, signatureSize] at h2 ⊢
      omega
  · intro sid p hok
    simp only [newPacketPushRequest] at hok
    by_cases hl : sid.length ≠ peerIdentitySize
    · rw [if_pos hl] at hok; cases hok
    · rw [if_neg hl] at hok
      rw [← Except.ok.inj hok]
      show (packetHeaderSize + signatureSize) % 65536 = 548
      decide
  · intro sid diff ch p hok
    simp only [newPacketPushChallenge] at hok
    by_cases hc : sid.length ≠ peerIdentitySize ∨ ch.length ≠ challengeSize
    · rw [if_pos hc] at hok; cases hok
    · rw [if_neg hc] at hok
      rw [← Except.ok.inj hok]
      show (packetHeaderSize + signatureSize + challengeSize) % 65536 + 4 = 584
      decide
  · intro sid ch no node p hok
    simp only [newPacketPush] at hok
    by_cases hc : sid.length ≠ peerIdentitySize ∨ ch.length ≠ challengeSize ∨
        no.length ≠ nonceSize ∨
        maxPacketSize < packetHeaderSize + signatureSize + challengeSize + nonceSize +
          (nodeToBytes node).length
    · rw [if_pos hc] at hok; cases hok
    · rw [if_neg hc] at hok
      rw [← Except.ok.inj hok]
      push_neg at hc
      have h4 := hc.2.2.2
      show 548 ≤ (packetHeaderSize + signatureSize + challengeSize + nonceSize +
        (nodeToBytes node).length) % 65536
      simp only [maxPacketSize, packetHeaderSize, signatureSize, challengeSize,
        nonceSize] at h4 ⊢
      omega
  · intro sid ttl dt d p hok
    simp only [newPacketMessage] at hok
    by_cases hc : sid.length ≠ peerIdentitySize ∨
        maxPacketSize < packetHeaderSize + signatureSize + 1 + 1 + 2 + d.length
    · rw [if_pos hc] at hok; cases hok
    · rw [if_neg hc] at hok
      rw [← Except.ok.inj hok]
      push_neg at hc
      have h2 := hc.2
      show 548 ≤ (packetHeaderSize + signatureSize + 1 + 1 + 2 + d.length) % 65536
      simp only [maxPacketSize, packetHeaderSize, signatureSize] at h2 ⊢
      omega

theorem c10_header_size_check_witness :
    parsePacketHeader (packetHeaderToBytes ⟨548, typeGossipPing, List.replicate 32 0⟩) =
      .error .invalidSize ∧
    (∀ h : PacketHeaderM,
      parsePacketHeader (packetHeaderToBytes ⟨548, typeGossipPing, List.replicate 32 0⟩) =
        .ok h → h.size = 0) := by
  constructor
  · exact c10_header_size_check.1
      (packetHeaderToBytes ⟨548, typeGossipPing, List.replicate 32 0⟩)
      (by decide) (by decide) (by decide)
  · intro h
    exact c10_header_size_check.2.1 _ h

/-- **C4** (code bug).  The spec's round-trip property fails for every
constructor-built packet: each constructor sets Size to the full packet length
(at least 548 = header + signature), but `ParsePacketHeader` on the first 36
bytes of the serialisation accepts only Size = 0, so it returns
`ErrParsePacketInvalidSize` before any per-type `Parse` can run.  The parser's
own test (`TestParsePacketHeader`, part_017) expects a 36-byte header with a
nonzero Size field to parse successfully, which this code refuses. -/
theorem c4_roundtrip_fails_at_header :
    (∀ (sid sig : List Nat) (p : PacketPing), newPacketPing sid = .ok p →
      parsePacketHeader ((pingToBytes { p with signature := sig }).take
        packetHeaderSize) = .error .invalidSize) ∧
    (∀ (sid sig : List Nat) (p : PacketPing), newPacketPong sid = .ok p →
      parsePacketHeader ((pingToBytes { p with signature := sig }).take
        packetHeaderSize) = .error .invalidSize) ∧
    (∀ (sid sig : List Nat) (p : PacketPullRequest), newPacketPullRequest sid = .ok p →
      parsePacketHeader ((pullRequestToBytes { p with signature := sig }).take
        packetHeaderSize) = .error .invalidSize) ∧
    (∀ (sid sig : List Nat) (nodes : List Node) (p : PacketPullResponse),
      newPacketPullResponse sid nodes = .ok p →
      parsePacketHeader ((pullResponseToBytes { p with signature := sig }).take
        packetHeaderSize) = .error .invalidSize) ∧
    (∀ (sid sig : List Nat) (p : PacketPushRequest), newPacketPushRequest sid = .ok p →
      parsePacketHeader ((pushRequestToBytes { p with signature := sig }).take
        packetHeaderSize) = .error .invalidSize) ∧
    (∀ (sid sig ch : List Nat) (diff : Nat) (p : PacketPushChallenge),
      newPacketPushChallenge sid diff ch = .ok p →
      parsePacketHeader ((pushChallengeToBytes { p with signature := sig }).take
        packetHeaderSize) = .error .invalidSize) ∧
    (∀ (sid sig ch no : List Nat) (node : Node) (p : PacketPush),
      newPacketPush sid ch no node = .ok p →
      parsePacketHeader ((pushToBytes { p with signature := sig }).take
        packetHeaderSize) = .error .invalidSize) ∧
    (∀ (sid sig d : List Nat) (ttl dt : Nat) (p : PacketMessage),
      newPacketMessage sid ttl dt d = .ok p →
      parsePacketHeader ((messageToBytes { p with signature := sig }).take
        packetHeaderSize) = .error .invalidSize) := by
  refine ⟨?_, ?_, ?_, ?_, ?_, ?_, ?_, ?_⟩
  · intro sid sig p hok
    simp only [newPacketPing] at hok
    by_cases hl : sid.length ≠ peerIdentitySize
    · rw [if_pos hl] at hok; cases hok
    · rw [if_neg hl] at hok
      push_neg at hl
      rw [← Except.ok.inj hok]
      show parsePacketHeader ((packetHeaderToBytes
        ⟨(packetHeaderSize + signatureSize) % 65536, typeGossipPing, sid⟩ ++ sig).take
          packetHeaderSize) = .error .invalidSize
      rw [take_packetHeader _ _ (by simpa [peerIdentitySize] using hl)]
      exact parsePacketHeader_constructed _ (by simpa [peerIdentitySize] using hl)
        (show (packetHeaderSize + signatureSize) % 65536 < 65536 by decide)
        (show (packetHeaderSize + signatureSize) % 65536 ≠ 0 by decide)
        (show supportedIncomingMessageTypes.contains typeGossipPing = true by decide)
        (show typeGossipPing < 65536 by decide)
  · intro sid sig p hok
    simp only [newPacketPong] at hok
    by_cases hl : sid.length ≠ peerIdentitySize
    · rw [if_pos hl] at hok; cases hok
    · rw [if_neg hl] at hok
      push_neg at hl
      rw [← Except.ok.inj hok]
      show parsePacketHeader ((packetHeaderToBytes
        ⟨(packetHeaderSize + signatureSize) % 65536, typeGossipPong, sid⟩ ++ sig).take
          packetHeaderSize) = .error .invalidSize
      rw [take_packetHeader _ _ (by simpa [peerIdentitySize] using hl)]
      exact parsePacketHeader_constructed _ (by simpa [peerIdentitySize] using hl)
        (show (packetHeaderSize + signatureSize) % 65536 < 65536 by decide)
        (show (packetHeaderSize + signatureSize) % 65536 ≠ 0 by decide)
        (show supportedIncomingMessageTypes.contains typeGossipPong = true by decide)
        (show typeGossipPong < 65536 by decide)
  · intro sid sig p hok
    simp only [newPacketPullRequest] at hok
    by_cases hl : sid.length ≠ peerIdentitySize
    · rw [if_pos hl] at hok; cases hok
    · rw [if_neg hl] at hok
      push_neg at hl
      rw [← Except.ok.inj hok]
      show parsePacketHeader ((packetHeaderToBytes
        ⟨(packetHeaderSize + signatureSize) % 65536, typeGossipPullRequest, sid⟩ ++
          sig).take packetHeaderSize) = .error .invalidSize
      rw [take_packetHeader _ _ (by simpa [peerIdentitySize] using hl)]
      exact parsePacketHeader_constructed _ (by simpa [peerIdentitySize] using hl)
        (show (packetHeaderSize + signatureSize) % 65536 < 65536 by decide)
        (show (packetHeaderSize + signatureSize) % 65536 ≠ 0 by decide)
        (show supportedIncomingMessageTypes.contains typeGossipPullRequest = true by decide)
        (show typeGossipPullRequest < 65536 by decide)
  · intro sid sig nodes p hok
    simp only [newPacketPullResponse] at hok
    by_cases hc : sid.length ≠ peerIdentitySize ∨
        maxPacketSize < packetHeaderSize + signatureSize +
          (nodes.map fun n => (nodeToBytes n).length).sum
    · rw [if_pos hc] at hok; cases hok
    · rw [if_neg hc] at hok
      push_neg at hc
      rw [← Except.ok.inj hok]
      show parsePacketHeader (((packetHeaderToBytes
        ⟨(packetHeaderSize + signatureSize +
            (nodes.map fun n => (nodeToBytes n).length).sum) % 65536,
          typeGossipPullResponse, sid⟩ ++ (nodes.map nodeToBytes).flatten) ++ sig).take
            packetHeaderSize) = .error .invalidSize
      rw [List.append_assoc]
      rw [take_packetHeader _ _ (by simpa [peerIdentitySize] using hc.1)]
      refine parsePacketHeader_constructed _ (by simpa [peerIdentitySize] using hc.1)
        ?_ ?_
        (show supportedIncomingMessageTypes.contains typeGossipPullResponse = true
          by decide)
        (show typeGossipPullResponse < 65536 by decide)
      · show (packetHeaderSize + signatureSize +
          (nodes.map fun n => (nodeToBytes n).length).sum) % 65536 < 65536
        exact Nat.mod_lt _ (by decide)
      · show (packetHeaderSize + signatureSize +
          (nodes.map fun n => (nodeToBytes n).length).sum) % 65536 ≠ 0
        have h2 := hc.2
        simp only [maxPacketSize, packetHeaderSize, signatureSize] at h2 ⊢
        omega
  · intro sid sig p hok
    simp only [newPacketPushRequest] at hok
    by_cases hl : sid.length ≠ peerIdentitySize
    · rw [if_pos hl] at hok; cases hok
    · rw [if_neg hl] at hok
      push_neg at hl
      rw [← Except.ok.inj hok]
      show parsePacketHeader ((packetHeaderToBytes
        ⟨(packetHeaderSize + signatureSize) % 65536, typeGossipPushRequest, sid⟩ ++
          sig).take packetHeaderSize) = .error .invalidSize
      rw [take_packetHeader _ _ (by simpa [peerIdentitySize] using hl)]
      exact parsePacketHeader_constructed _ (by simpa [peerIdentitySize] using hl)
        (show (packetHeaderSize + signatureSize) % 65536 < 65536 by decide)
        (show (packetHeaderSize + signatureSize) % 65536 ≠ 0 by decide)
        (show supportedIncomingMessageTypes.contains typeGossipPushRequest = true by decide)
        (show typeGossipPushRequest < 65536 by decide)
  · intro sid sig ch diff p hok
    simp only [newPacketPushChallenge] at hok
    by_cases hc : sid.length ≠ peerIdentitySize ∨ ch.length ≠ challengeSize
    · rw [if_pos hc] at hok; cases hok
    · rw [if_neg hc] at hok
      push_neg at hc
      rw [← Except.ok.inj hok]
      show parsePacketHeader ((((packetHeaderToBytes
        ⟨(packetHeaderSize + signatureSize + challengeSize) % 65536 + 4,
          typeGossipPushChallenge, sid⟩ ++ u32beBytes diff) ++ ch) ++ sig).take
            packetHeaderSize) = .error .invalidSize
      rw [List.append_assoc, List.append_assoc]
      rw [take_packetHeader _ _ (by simpa [peerIdentitySize] using hc.1)]
      exact parsePacketHeader_constructed _ (by simpa [peerIdentitySize] using hc.1)
        (show (packetHeaderSize + signatureSize + challengeSize) % 65536 + 4 < 65536
          by decide)
        (show (packetHeaderSize + signatureSize + challengeSize) % 65536 + 4 ≠ 0
          by decide)
        (show supportedIncomingMessageTypes.contains typeGossipPushChallenge = true
          by decide)
        (show typeGossipPushChallenge < 65536 by decide)
  · intro sid sig ch no node p hok
    simp only [newPacketPush] at hok
    by_cases hc : sid.length ≠ peerIdentitySize ∨ ch.length ≠ challengeSize ∨
        no.length ≠ nonceSize ∨
        maxPacketSize < packetHeaderSize + signatureSize + challengeSize + nonceSize +
          (nodeToBytes node).length
    · rw [if_pos hc] at hok; cases hok
    · rw [if_neg hc] at hok
      push_neg at hc
      rw [← Except.ok.inj hok]
      show parsePacketHeader (((((packetHeaderToBytes
        ⟨(packetHeaderSize + signatureSize + challengeSize + nonceSize +
            (nodeToBytes node).length) % 65536, typeGossipPush, sid⟩ ++ ch) ++ no) ++
          nodeToBytes node) ++ sig).take packetHeaderSize) = .error .invalidSize
      rw [List.append_assoc, List.append_assoc, List.append_assoc]
      rw [take_packetHeader _ _ (by simpa [peerIdentitySize] using hc.1)]
      refine parsePacketHeader_constructed _ (by simpa [peerIdentitySize] using hc.1)
        ?_ ?_
        (show supportedIncomingMessageTypes.contains typeGossipPush = true by decide)
        (show typeGossipPush < 65536 by decide)
      · show (packetHeaderSize + signatureSize + challengeSize + nonceSize +
          (nodeToBytes node).length) % 65536 < 65536
        exact Nat.mod_lt _ (by decide)
      · show (packetHeaderSize + signatureSize + challengeSize + nonceSize +
          (nodeToBytes node).length) % 65536 ≠ 0
        have h4 := hc.2.2.2
        simp only [maxPacketSize, packetHeaderSize, signatureSize, challengeSize,
          nonceSize] at h4 ⊢
        omega
  · intro sid sig d ttl dt p hok
    simp only [newPacketMessage] at hok
    by_cases hc : sid.length ≠ peerIdentitySize ∨
        maxPacketSize < packetHeaderSize + signatureSize + 1 + 1 + 2 + d.length
    · rw [if_pos hc] at hok; cases hok
    · rw [if_neg hc] at hok
      push_neg at hc
      rw [← Except.ok.inj hok]
      show parsePacketHeader (((((packetHeaderToBytes
        ⟨(packetHeaderSize + signatureSize + 1 + 1 + 2 + d.length) % 65536,
          typeGossipMessage, sid⟩ ++ [ttl % 256, 0]) ++ u16beBytes dt) ++ d) ++
            sig).take packetHeaderSize) = .error .invalidSize
      rw [List.append_assoc, List.append_assoc, List.append_assoc]
      rw [take_packetHeader _ _ (by simpa [peerIdentitySize] using hc.1)]
      refine parsePacketHeader_constructed _ (by simpa [peerIdentitySize] using hc.1)
        ?_ ?_
        (show supportedIncomingMessageTypes.contains typeGossipMessage = true by decide)
        (show typeGossipMessage < 65536 by decide)
      · show (packetHeaderSize + signatureSize + 1 + 1 + 2 + d.length) % 65536 < 65536
        exact Nat.mod_lt _ (by decide)
      · show (packetHeaderSize + signatureSize + 1 + 1 + 2 + d.length) % 65536 ≠ 0
        have h2 := hc.2
        simp only [maxPacketSize, packetHeaderSize, signatureSize] at h2 ⊢
        omega

theorem c4_roundtrip_fails_at_header_witness :
    parsePacketHeader ((pingToBytes
      { header := ⟨(packetHeaderSize + signatureSize) % 65536, typeGossipPing,
          List.replicate 32 0⟩,
        signature := List.replicate 512 1 }).take packetHeaderSize) =
      .error .invalidSize := by
  exact c4_roundtrip_fails_at_header.1 (List.replicate 32 0) (List.replicate 512 1)
    ⟨⟨(packetHeaderSize + signatureSize) % 65536, typeGossipPing, List.replicate 32 0⟩,
      []⟩ (by rfl)


theorem getD_ite_none (c : Prop) [Decidable c] :
    (if c then some (none : Option Sampler) else none).getD none = none := by
  split <;> rfl

theorem swap2_getD_none (L : Nat) (l : List (Option Sampler)) (i j : Nat)
    (hinv : ∀ k, k < L → l.getD k none = none) (hi : i < L) (hj : j < L) :
    ∀ k, k < L → (swap2 l i j).getD k none = none := by
  intro k hk
  unfold swap2
  cases hgi : l[i]? with
  | none => exact hinv k hk
  | some vi =>
      cases hgj : l[j]? with
      | none => exact hinv k hk
      | some vj =>
          have hvi : vi = none := by
            have h := hinv i hi
            simp only [List.getD, List.get?_eq_getElem?, hgi] at h
            simpa using h
          have hvj : vj = none := by
            have h := hinv j hj
            simp only [List.getD, List.get?_eq_getElem?, hgj] at h
            simpa using h
          subst hvi; subst hvj
          simp only [List.getD, List.get?_eq_getElem?]
          rw [List.getElem?_set, List.getElem?_set]
          by_cases h1 : j = k
          · rw [if_pos h1]
            exact getD_ite_none _
          · rw [if_neg h1]
            by_cases h2 : i = k
            · rw [if_pos h2]
              exact getD_ite_none _
            · rw [if_neg h2]
              simpa [List.getD, List.get?_eq_getElem?] using hinv k hk

theorem fyDown_getD_none (L : Nat) :
    ∀ (i : Nat) (js : List Nat) (l : List (Option Sampler)),
      (∀ k, k < L → l.getD k none = none) → i < L →
      ∀ k, k < L → (fyDown l i js).getD k none = none
  | 0, _, _, hinv, _, k, hk => hinv k hk
  | i + 1, js, l, hinv, hi, k, hk => by
      rw [fyDown]
      refine fyDown_getD_none L i js.tail _ ?_ (by omega) k hk
      refine swap2_getD_none L l (i + 1) (js.headD 0 % (i + 2)) hinv hi ?_
      have := Nat.mod_lt (js.headD 0) (show 0 < i + 2 by omega)
      omega

theorem collectFrom_head_none (shuffled : List (Option Sampler))
    (acc : List (Option Node)) (rest : List Nat)
    (h : shuffled.getD 0 none = none) :
    collectFrom shuffled acc (0 :: rest) = .error .panicNilDeref := by
  simp only [collectFrom]
  rw [h]


/-- `RandomNodeSubset` dereferences a nil sampler pointer for every in-range
`n`: the first `len(samplers)` entries of `copySlice` are the nil pointers that
`make` pre-filled, the Fisher-Yates loop permutes only positions below `n ≤
len`, and the read-out loop then calls `Sample` through `copySlice[0] = nil`. -/
theorem randomNodeSubset_panics (samplers : List Sampler) (n : Int) (js : List Nat)
    (h0 : 0 < n) (hle : n ≤ (samplers.length : Int)) :
    randomNodeSubset samplers n js = .error .panicNilDeref := by
  rw [randomNodeSubset, if_neg (by push_neg; exact ⟨by omega, by omega⟩)]
  show collectFrom
      (fyDown (List.replicate samplers.length none ++ samplers.map some)
        (n.toNat - 1) js)
      (List.replicate n.toNat none) (List.range n.toNat) = .error .panicNilDeref
  have hinv0 : ∀ k, k < samplers.length →
      (List.replicate samplers.length (none : Option Sampler) ++
        samplers.map some).getD k none = none := by
    intro k hk
    simp [List.getD, List.get?_eq_getElem?, List.getElem?_append,
      List.getElem?_replicate, hk]
  have hsh := fyDown_getD_none samplers.length (n.toNat - 1) js _ hinv0 (by omega) 0
    (by omega)
  rw [show n.toNat = (n.toNat - 1) + 1 by omega, List.range_succ_eq_map]
  exact collectFrom_head_none _ _ _ hsh

theorem randomNodeSubset_invalid (samplers : List Sampler) (n : Int) (js : List Nat)
    (h : n ≤ 0 ∨ (samplers.length : Int) < n) :
    randomNodeSubset samplers n js = .error .invalidArg := by
  rw [randomNodeSubset, if_pos h.symm]

/-- **C9** (code bug).  For every `n` with `0 < n ≤ |samplers|`,
`RandomNodeSubset(n)` never returns the claimed list of n sampler outputs: the
`copySlice := make([]*Sampler, len)` pre-fills `len` nil pointers and the
subsequent appends put the real pointers after them, so the shuffle permutes
nils and `copySlice[ii].Sample()` panics with a nil-pointer dereference.  For
`n ≤ 0` or `n > |samplers|` it returns an error, as the claim says. -/
theorem c9_randomNodeSubset_bug :
    (∀ (samplers : List Sampler) (n : Int) (js : List Nat),
      0 < n → n ≤ (samplers.length : Int) →
      randomNodeSubset samplers n js = .error .panicNilDeref) ∧
    (∀ (samplers : List Sampler) (n : Int) (js : List Nat),
      n ≤ 0 ∨ (samplers.length : Int) < n →
      randomNodeSubset samplers n js = .error .invalidArg) :=
  ⟨randomNodeSubset_panics, randomNodeSubset_invalid⟩

def exSampler : Sampler := { bias := [], elem := none, currentElemHash := [] }

theorem c9_randomNodeSubset_bug_witness :
    randomNodeSubset [exSampler, exSampler] 1 [] = .error .panicNilDeref ∧
    randomNodeSubset [exSampler, exSampler] 0 [] = .error .invalidArg := by
  constructor
  · exact c9_randomNodeSubset_bug.1 [exSampler, exSampler] 1 [] (by norm_num)
      (by norm_num)
  · exact c9_randomNodeSubset_bug.2 [exSampler, exSampler] 0 [] (Or.inl (by norm_num))

theorem randSubsetV3_ok (nodes : List Node) (n : Int) (js : List Nat) (hn : 0 ≤ n) :
    ∃ l, randSubsetV3 nodes n js = .ok l := by
  rw [randSubsetV3]
  by_cases h0 : n = 0
  · rw [if_pos h0]; exact ⟨[], rfl⟩
  · rw [if_neg h0]
    by_cases h1 : (nodes.length : Int) < n
    · rw [if_pos h1]
      by_cases h2 : nodes.length = 0
      · rw [if_pos h2]; exact ⟨[], rfl⟩
      · rw [if_neg h2]; exact ⟨_, rfl⟩
    · rw [if_neg h1, if_neg (by omega : ¬n < 0)]
      exact ⟨_, rfl⟩

/-- **C2** (code bug).  The admission condition and the "otherwise unchanged"
half of the claim hold, but whenever the condition does hold the rebuild never
completes: the sampler-group draw `RandomNodeSubset(γ·L)` panics on a nil
sampler pointer for `0 < γ·L ≤ |samplers|` (and errors out of `Start`
otherwise), so the merged deduplicated view is never installed. -/
theorem c2_round_view_step :
    (∀ (alphaL betaL gammaL : Int) (mainView pushV pullV : List Node)
       (pullSent : Nat) (samplers : List Sampler) (js1 js2 js3 : List Nat),
      ¬((pushV.length : Int) ≤ alphaL ∧ 0 < pushV.length ∧
          (0 < pullV.length ∨ pullSent = 0)) →
      roundViewStep alphaL betaL gammaL mainView pushV pullV pullSent samplers
        js1 js2 js3 = .ok mainView) ∧
    (∀ (alphaL betaL gammaL : Int) (mainView pushV pullV : List Node)
       (pullSent : Nat) (samplers : List Sampler) (js1 js2 js3 : List Nat),
      ((pushV.length : Int) ≤ alphaL ∧ 0 < pushV.length ∧
          (0 < pullV.length ∨ pullSent = 0)) →
      0 ≤ betaL → 0 < gammaL → gammaL ≤ (samplers.length : Int) →
      roundViewStep alphaL betaL gammaL mainView pushV pullV pullSent samplers
        js1 js2 js3 = .error .panicNilDeref) ∧
    (∀ (alphaL betaL gammaL : Int) (mainView pushV pullV : List Node)
       (pullSent : Nat) (samplers : List Sampler) (js1 js2 js3 : List Nat),
      ((pushV.length : Int) ≤ alphaL ∧ 0 < pushV.length ∧
          (0 < pullV.length ∨ pullSent = 0)) →
      0 ≤ betaL → (gammaL ≤ 0 ∨ (samplers.length : Int) < gammaL) →
      roundViewStep alphaL betaL gammaL mainView pushV pullV pullSent samplers
        js1 js2 js3 = .error .invalidArg) := by
  refine ⟨?_, ?_, ?_⟩
  · intro alphaL betaL gammaL mainView pushV pullV pullSent samplers js1 js2 js3 hcond
    rw [roundViewStep, if_neg hcond]
  · intro alphaL betaL gammaL mainView pushV pullV pullSent samplers js1 js2 js3
      hcond hbeta hg hgle
    rw [roundViewStep, if_pos hcond]
    obtain ⟨l1, h1⟩ := randSubsetV3_ok pushV alphaL js1 (by
      have := hcond.1; have := hcond.2.1; omega)
    rw [h1]
    obtain ⟨l2, h2⟩ := randSubsetV3_ok pullV betaL js2 hbeta
    rw [h2]
    rw [randomNodeSubset_panics samplers gammaL js3 hg hgle]
  · intro alphaL betaL gammaL mainView pushV pullV pullSent samplers js1 js2 js3
      hcond hbeta hg
    rw [roundViewStep, if_pos hcond]
    obtain ⟨l1, h1⟩ := randSubsetV3_ok pushV alphaL js1 (by
      have := hcond.1; have := hcond.2.1; omega)
    rw [h1]
    obtain ⟨l2, h2⟩ := randSubsetV3_ok pullV betaL js2 hbeta
    rw [h2]
    rw [randomNodeSubset_invalid samplers gammaL js3 hg]

theorem c2_round_view_step_witness :
    roundViewStep 1 0 1 [exNode0] [] [] 1 [exSampler] [] [] [] = .ok [exNode0] ∧
    roundViewStep 1 0 1 [exNode0] [exNode1] [] 0 [exSampler] [] [] [] =
      .error .panicNilDeref := by
  constructor
  · exact c2_round_view_step.1 1 0 1 [exNode0] [] [] 1 [exSampler] [] [] []
      (by norm_num)
  · exact c2_round_view_step.2.1 1 0 1 [exNode0] [exNode1] [] 0 [exSampler] [] [] []
      (by norm_num) (by norm_num) (by norm_num) (by norm_num)

end Brahms
